import Mathlib

/-!
Verification development for `market-notifier.py`, a one-shot scheduled
market-alerting script.  The Python program is shallowly embedded below:

* JSON values produced by `json.load` become the inductive type `JValue`;
  Python numbers (ints and floats) are modelled as exact rationals.
* Python operations that can raise (`state[key]`, `list.index`, `sum`,
  `len`, indexing a list by position) become `Except PyError` computations,
  distinguishing the exception classes the program cares about
  (`run_check` catches only `ValueError`, which is therefore modelled as
  the `none` result of `listIndexOfFalse`).
* The state file is modelled as `Option (Option JValue)`: `none` means the
  file is missing, `some none` means it exists but reading or parsing it
  fails, `some (some j)` means it parses to the JSON value `j`.  Writing a
  value and parsing it back yields an equal value (`json.dump` followed by
  `json.load` is the identity on parsed JSON values), so `save_state`
  stores the value itself together with its serialized bytes.
* Wall-clock time is a parameter (`ISTTime`, plus the formatted timestamp
  string), and the market-data fetch result is a parameter of type
  `FetchResult`; both are external inputs of a run.
* Notifications: `run_check` returns the list of texts handed to
  `send_telegram` during the run.  Delivery failures and missing
  credentials only affect the ignored boolean result of `send_telegram`,
  never the texts or the state, so they do not appear in the model.
-/

namespace MarketNotifier

/-- JSON values as returned by `json.load`.  Objects keep insertion order,
as Python dicts do; parsed JSON objects have pairwise distinct keys. -/
inductive JValue : Type where
  | null : JValue
  | bool (b : Bool) : JValue
  | num (q : ℚ) : JValue
  | str (s : String) : JValue
  | arr (xs : List JValue) : JValue
  | obj (fields : List (String × JValue)) : JValue

/-- Python exception classes relevant to the embedded code paths. -/
inductive PyError : Type where
  | typeError : PyError
  | keyError : PyError
  | attributeError : PyError
  | indexError : PyError
deriving DecidableEq

/-- CRASH_SEQUENCE from the CONFIG section: rupee amount of each tranche. -/
def CRASH_SEQUENCE : List ℤ := [20000, 20000, 10000, 20000, 20000, 10000]

/-- FUNDS from the CONFIG section: the four fund names, in order. -/
def FUNDS : List String :=
  ["Navi Nifty India Manufacturing Index Fund",
   "Navi Flexi Cap Fund",
   "Navi Nifty Midcap 150 Index Fund",
   "Navi Nifty 50 Index Fund"]

/-- VIX_THRESHOLD from the CONFIG section (20.0 in the source; the float
literal is the exact rational 20). -/
def VIX_THRESHOLD : ℚ := 20

/-- CRASH_TRIGGER_PCT from the CONFIG section (-3.0 in the source; the
float literal is the exact rational -3). -/
def CRASH_TRIGGER_PCT : ℚ := -3

/-- The fresh state value built by `load_state` on a missing or unreadable
file: the dict with key "deployed" mapped to `[False] * len(CRASH_SEQUENCE)`. -/
def default_state : JValue :=
  .obj [("deployed", .arr (List.replicate CRASH_SEQUENCE.length (.bool false)))]

/-- Embeds `load_state`: if the file is missing (`none`) or exists but
reading or parsing raises (`some none`), return the fresh default state;
otherwise return the parsed JSON value.  The function is total, so load
never propagates an error. -/
def load_state : Option (Option JValue) → JValue
  | some (some j) => j
  | some none => default_state
  | none => default_state

/-- A string of `n` spaces, for the `indent=2` serialization format. -/
def pad (n : Nat) : String := String.mk (List.replicate n ' ')

/-- Rendering of a number in output text and serialized JSON.  This stands
for the Python rendering of ints and floats. -/
def pyRepr (q : ℚ) : String := toString q

mutual

/-- Serialization of a JSON value as written by `json.dump(state, f, indent=2)`
(string escaping and float formatting abstracted by `pyRepr`). -/
def jSer (ind : Nat) : JValue → String
  | .null => "null"
  | .bool b => if b then "true" else "false"
  | .num q => pyRepr q
  | .str s => "\x22" ++ s ++ "\x22"
  | .arr [] => "[]"
  | .arr (x :: xs) =>
      "[\n" ++ String.intercalate ",\n" (jSerItems (ind + 2) (x :: xs)) ++
      "\n" ++ pad ind ++ "]"
  | .obj [] => "\x7b\x7d"
  | .obj (f :: fs) =>
      "\x7b\n" ++ String.intercalate ",\n" (jSerFields (ind + 2) (f :: fs)) ++
      "\n" ++ pad ind ++ "\x7d"

/-- Serialized array items, each on its own indented line. -/
def jSerItems (ind : Nat) : List JValue → List String
  | [] => []
  | x :: rest => (pad ind ++ jSer ind x) :: jSerItems ind rest

/-- Serialized object fields, each on its own indented line. -/
def jSerFields (ind : Nat) : List (String × JValue) → List String
  | [] => []
  | (k, v) :: rest =>
      (pad ind ++ "\x22" ++ k ++ "\x22: " ++ jSer ind v) :: jSerFields ind rest

end

/-- Embeds `save_state`: writes the serialization of `state` over the file.
The first component is the state-file content after the write as seen by a
later `load_state` (a dumped value parses back to an equal value); the
second component is the exact bytes written. -/
def save_state (state : JValue) : Option (Option JValue) × String :=
  (some (some state), jSer 0 state)

/-- Lookup of a key in an object, first binding wins (parsed JSON objects
have distinct keys). -/
def jLookup : List (String × JValue) → String → Option JValue
  | [], _ => none
  | (k, v) :: rest, key => if k = key then some v else jLookup rest key

/-- Embeds the Python subscript `j[key]` for a string key: a KeyError on an
object without the key, a TypeError on any non-object value. -/
def jGetItem (j : JValue) (key : String) : Except PyError JValue :=
  match j with
  | .obj fs =>
      match jLookup fs key with
      | some v => .ok v
      | none => .error .keyError
  | _ => .error .typeError

/-- Replace the binding of `key` (insert at the end if absent). -/
def jSetKey : List (String × JValue) → String → JValue → List (String × JValue)
  | [], key, v => [(key, v)]
  | (k, w) :: rest, key, v =>
      if k = key then (k, v) :: rest else (k, w) :: jSetKey rest key v

/-- Embeds the Python assignment `j[key] = v` on an object (the program only
performs it after a successful read of the same key, so the non-object
branch is unreachable and returns `j` unchanged). -/
def jSetItem (j : JValue) (key : String) (v : JValue) : JValue :=
  match j with
  | .obj fs => .obj (jSetKey fs key v)
  | _ => j

/-- Python equality test of a JSON value against `False`: `False == False`,
and `False == 0` for numbers; every other JSON value compares unequal. -/
def eqPyFalse : JValue → Bool
  | .bool b => !b
  | .num q => q == 0
  | _ => false

/-- Embeds `state["deployed"].index(False)` with the surrounding
`try ... except ValueError: idx = None`: on a list, the position of the
first element equal to `False` (or `none` when absent, the caught
ValueError); a TypeError on a string (`str.index` rejects a non-string
argument); an AttributeError on any other value, which has no `index`
attribute.  This helper covers only the list case; the other cases are
handled where it is called. -/
def listIndexOfFalse : List JValue → Option Nat
  | [] => none
  | x :: rest =>
      if eqPyFalse x then some 0 else (listIndexOfFalse rest).map (· + 1)

/-- Numeric value of a list element under Python `sum` (bools count as 0/1,
anything non-numeric raises a TypeError). -/
def pyNumVal : JValue → Except PyError ℚ
  | .bool b => .ok (if b then 1 else 0)
  | .num q => .ok q
  | _ => .error .typeError

/-- Python `sum` over the elements of a list, with accumulator. -/
def pySumList : List JValue → ℚ → Except PyError ℚ
  | [], acc => .ok acc
  | x :: rest, acc =>
      match pyNumVal x with
      | .ok q => pySumList rest (acc + q)
      | .error e => .error e

/-- Embeds Python `sum(v)` for a JSON value: sums a list elementwise; an
empty string or empty object iterates to nothing and sums to 0; a nonempty
string or object yields string elements, which raise a TypeError; any other
value is not iterable (TypeError). -/
def pySum : JValue → Except PyError ℚ
  | .arr xs => pySumList xs 0
  | .str s => if s = "" then .ok 0 else .error .typeError
  | .obj [] => .ok 0
  | .obj (_ :: _) => .error .typeError
  | _ => .error .typeError

/-- Embeds Python `len(v)`: defined for lists, strings and objects, a
TypeError otherwise. -/
def pyLen : JValue → Except PyError Nat
  | .arr xs => .ok xs.length
  | .str s => .ok s.length
  | .obj fs => .ok fs.length
  | _ => .error .typeError

/-- The successful payload of `fetch_market_data` (the dict without an
"error" key).  Fields read with `.get` are `Option`s. -/
structure MarketData : Type where
  nifty_pct : Option ℚ
  nifty_price : Option ℚ
  time : Option String
  vix : Option ℚ
  fii : Option ℚ
  dii : Option ℚ
  top_movers : List String

/-- The result of `fetch_market_data`: either a dict carrying an "error"
key with its message, or the market-data payload. -/
inductive FetchResult : Type where
  | err (msg : String) : FetchResult
  | ok (data : MarketData) : FetchResult

/-- Local IST wall-clock time at invocation, as read by `is_eod_run`. -/
structure ISTTime : Type where
  hour : Nat
  minute : Nat

/-- Embeds `is_eod_run`: true when the IST time is 18:30 or 18:31. -/
def is_eod_run (now : ISTTime) : Bool :=
  now.hour == 18 && (now.minute == 30 || now.minute == 31)

/-- Weight-vector selection inside `compute_allocation` (lines 92-95): the
reduced-midcap vector when a VIX reading is present and strictly above
VIX_THRESHOLD, the uniform vector otherwise. -/
def selectWeights (vix : Option ℚ) : List ℚ :=
  match vix with
  | some v => if v > VIX_THRESHOLD then [1/4, 13/40, 1/10, 13/40]
              else [1/4, 1/4, 1/4, 1/4]
  | none => [1/4, 1/4, 1/4, 1/4]

/-- Embeds `compute_allocation`: floor each weighted share, add the whole
rounding remainder to the first entry, and pair with the fund names
(`dict(zip(FUNDS, per))`; the four fund names are distinct, so the dict
keeps all four pairs in order). -/
def compute_allocation (amount : ℤ) (vix : Option ℚ) : List (String × ℤ) :=
  let weights := selectWeights vix
  let per := weights.map (fun w => ⌊(amount : ℚ) * w⌋)
  let diff := amount - per.sum
  let per2 := match per with
    | [] => ([] : List ℤ)
    | p0 :: rest => (p0 + diff) :: rest
  FUNDS.zip per2

/-- Rendering of an optional number in an f-string (`None` when absent). -/
def pyOptNum : Option ℚ → String
  | none => "None"
  | some q => pyRepr q

/-- Rendering of an optional string in an f-string (`None` when absent). -/
def pyOptStr : Option String → String
  | none => "None"
  | some s => s

/-- The pure text of the EOD summary, given the already-computed deployed
sum and length (the template of `format_eod`). -/
def eod_text (nowStr : String) (p : MarketData) (used : ℚ) (n : Nat) : String :=
  "EOD Market Summary — " ++ nowStr ++ "\n" ++
  "1) Market headline: Nifty " ++ pyOptNum p.nifty_pct ++ "% (" ++
    pyOptNum p.nifty_price ++ ")\n" ++
  "2) Top sectors ↑: (fetch externally) ; Top sectors ↓: (fetch externally)\n" ++
  "3) Notable movers: " ++
    (let s := String.intercalate ", " (p.top_movers.take 3);
     if s = "" then "N/A" else s) ++ "\n" ++
  "4) Catalysts: (summarize Reuters / ET / Mint / Bloomberg externally)\n" ++
  "5) Macro / flows: FII " ++ pyOptNum p.fii ++ " | DII " ++ pyOptNum p.dii ++
    " | VIX " ++ pyOptNum p.vix ++ "\n" ++
  "6) Events ahead: (RBI / US jobs / results - fill externally)\n" ++
  "7) Personal plan status: SIP ₹500 ×4 = ₹2000 | Crashes used: " ++
    pyRepr used ++ "/" ++ toString n ++ "\n" ++
  "8) Suggested next step: No action unless specified.\n"

/-- Embeds `format_eod`: reads `sum(state["deployed"])` and
`len(state["deployed"])`, each of which can raise on a malformed state,
then fills the EOD template. -/
def format_eod (nowStr : String) (payload : MarketData) (state : JValue) :
    Except PyError String :=
  match jGetItem state "deployed" with
  | .error e => .error e
  | .ok dep =>
      match pySum dep with
      | .error e => .error e
      | .ok used =>
          match pyLen dep with
          | .error e => .error e
          | .ok n => .ok (eod_text nowStr payload used n)

/-- The crash-deployment notification text built inline in `run_check`,
given the already-computed post-mutation deployed sum and length. -/
def format_crash (time : Option String) (pct : ℚ) (idx : Nat) (amount : ℤ)
    (alloc : List (String × ℤ)) (used : ℚ) (n : Nat) : String :=
  "MARKET DROP ≥3% — " ++ pyOptStr time ++ "\n" ++
  "Nifty " ++ pyRepr pct ++ "%\n" ++
  "Action: Crash #" ++ toString (idx + 1) ++ " → Deploy ₹" ++
    toString amount ++ "\n" ++
  "Allocations (normal or VIX-adjusted):\n" ++
  String.join (alloc.map (fun fa => "• " ++ fa.1 ++ ": ₹" ++ toString fa.2 ++ "\n")) ++
  "Tranches (3) — split roughly equally at 10:15 / 12:30 / 14:50 (adjust if close).\n" ++
  "Crashes used: " ++ pyRepr used ++ "/" ++ toString n ++ "\n"

/-- Embeds `run_check`.  Inputs: the IST wall-clock time, its formatted
string, the state-file content, and the fetch result.  Output: either an
uncaught Python exception, or the returned state together with the list of
texts handed to `send_telegram` during the run, in order.  The branch
structure follows the source line by line: fetch error first, then the EOD
window, then the missing-move guard, then the crash trigger with the
lowest undeployed tranche, the state mutation before the text is built,
and the no-trigger fallthrough. -/
def run_check (now : ISTTime) (nowStr : String) (file : Option (Option JValue))
    (fetch : FetchResult) : Except PyError (JValue × List String) :=
  match fetch with
  | .err msg => .ok (load_state file, ["Market fetch error: " ++ msg])
  | .ok data =>
      if is_eod_run now then
        match format_eod nowStr data (load_state file) with
        | .error e => .error e
        | .ok msg => .ok (load_state file, [msg])
      else
        match data.nifty_pct with
        | none => .ok (load_state file, [])
        | some pct =>
            if pct ≤ CRASH_TRIGGER_PCT then
              match jGetItem (load_state file) "deployed" with
              | .error e => .error e
              | .ok (.arr xs) =>
                  match listIndexOfFalse xs with
                  | none => .ok (load_state file, [])
                  | some idx =>
                      match CRASH_SEQUENCE.get? idx with
                      | none => .error .indexError
                      | some amount =>
                          match pySumList (xs.set idx (.bool true)) 0 with
                          | .error e => .error e
                          | .ok used =>
                              .ok (jSetItem (load_state file) "deployed"
                                     (.arr (xs.set idx (.bool true))),
                                   [format_crash data.time pct idx amount
                                      (compute_allocation amount data.vix)
                                      used (xs.set idx (.bool true)).length])
              | .ok (.str _) => .error .typeError
              | .ok _ => .error .attributeError
            else .ok (load_state file, [])

/-- Well-formed persisted state: the value has a readable "deployed" entry
that is an array of JSON booleans with no more entries than
CRASH_SEQUENCE.  This is exactly the shape `load_state` defaults to and
the program itself ever writes back. -/
def wf_state (j : JValue) : Prop :=
  ∃ bs : List Bool,
    jGetItem j "deployed" = .ok (.arr (bs.map JValue.bool)) ∧
    bs.length ≤ CRASH_SEQUENCE.length

/-- Well-formed state-file content: missing, unreadable or unparseable, or
parsing to a well-formed state. -/
def wf_file : Option (Option JValue) → Prop
  | some (some j) => wf_state j
  | _ => True

/-- The run conditions under which no tranche is deployed: a provider
error, an EOD-window run, an absent percentage move, a move above the
crash trigger, or a deployed list with no undeployed entry. -/
def no_deploy_conditions (now : ISTTime) (file : Option (Option JValue))
    (fetch : FetchResult) : Prop :=
  (∃ msg, fetch = .err msg) ∨
  is_eod_run now = true ∨
  (∃ d, fetch = .ok d ∧ d.nifty_pct = none) ∨
  (∃ d p, fetch = .ok d ∧ d.nifty_pct = some p ∧ CRASH_TRIGGER_PCT < p) ∨
  (∃ xs, jGetItem (load_state file) "deployed" = .ok (.arr xs) ∧
    listIndexOfFalse xs = none)

/-! ## Helper lemmas -/

/-- The selected weight vector is always one of the two configured vectors. -/
theorem selectWeights_eq_or (vix : Option ℚ) :
    selectWeights vix = [1/4, 13/40, 1/10, 13/40] ∨
    selectWeights vix = [1/4, 1/4, 1/4, 1/4] := by
  cases vix with
  | none => exact Or.inr rfl
  | some v =>
    by_cases h : v > VIX_THRESHOLD
    · exact Or.inl (by simp [selectWeights, h])
    · exact Or.inr (by simp [selectWeights, h])

/-- Summing a list of JSON booleans never raises and yields the count of
true entries (Python bools are summed as 0 and 1). -/
theorem pySumList_boolList (bs : List Bool) (acc : ℚ) :
    pySumList (bs.map JValue.bool) acc = .ok (acc + (bs.count true : ℚ)) := by
  induction bs generalizing acc with
  | nil => simp [pySumList]
  | cons b rest ih =>
    cases b with
    | false => simp [pySumList, pyNumVal, ih, List.count_cons]
    | true =>
      simp [pySumList, pyNumVal, ih, List.count_cons]
      ring_nf

/-- Setting an entry commutes with mapping bools into JSON values. -/
theorem map_set_bool (bs : List Bool) (i : Nat) :
    (bs.map JValue.bool).set i (.bool true) = (bs.set i true).map JValue.bool := by
  induction bs generalizing i with
  | nil => simp
  | cons b rest ih =>
    cases i with
    | zero => rfl
    | succ k => exact congrArg (JValue.bool b :: ·) (ih k)

/-- Setting a false entry to true increases the count of true entries by
exactly one. -/
theorem count_set_true (bs : List Bool) (idx : Nat)
    (h : bs[idx]? = some false) :
    (bs.set idx true).count true = bs.count true + 1 := by
  induction bs generalizing idx with
  | nil => simp at h
  | cons b rest ih =>
    cases idx with
    | zero =>
      simp only [List.getElem?_cons_zero, Option.some_inj] at h
      subst h
      simp [List.count_cons]
    | succ k =>
      simp only [List.getElem?_cons_succ] at h
      simp [List.set, List.count_cons, ih k h]
      cases b <;> simp

/-- On a list of JSON booleans, `listIndexOfFalse` returning an index
means that index holds false, every earlier index holds true, and the
index is within bounds. -/
theorem listIndexOfFalse_boolList (bs : List Bool) (idx : Nat)
    (h : listIndexOfFalse (bs.map JValue.bool) = some idx) :
    bs[idx]? = some false ∧ (∀ j, j < idx → bs[j]? = some true) ∧
    idx < bs.length := by
  induction bs generalizing idx with
  | nil => simp [listIndexOfFalse] at h
  | cons b rest ih =>
    cases b with
    | false =>
      simp only [List.map_cons, listIndexOfFalse, eqPyFalse, Bool.not_false,
        if_pos, Option.some_inj] at h
      subst h
      exact ⟨by simp, fun j hj => absurd hj (Nat.not_lt_zero j), Nat.succ_pos _⟩
    | true =>
      simp only [List.map_cons, listIndexOfFalse, eqPyFalse, Bool.not_true,
        if_neg, Option.map_eq_some', Bool.false_eq_true, if_false] at h
      obtain ⟨k, hk, hidx⟩ := h
      obtain ⟨h1, h2, h3⟩ := ih k hk
      subst hidx
      refine ⟨by simpa using h1, fun j hj => ?_, by simpa using h3⟩
      cases j with
      | zero => simp
      | succ m => simpa using h2 m (Nat.lt_of_succ_lt_succ hj)

/-- Looking up a key right after setting it returns the new value. -/
theorem jLookup_jSetKey (fs : List (String × JValue)) (k : String) (w : JValue) :
    jLookup (jSetKey fs k w) k = some w := by
  induction fs with
  | nil => simp [jSetKey, jLookup]
  | cons f rest ih =>
    by_cases h : f.1 = k
    · simp [jSetKey, jLookup, h]
    · simp [jSetKey, jLookup, h, ih]

/-- Reading a key back after `jSetItem` on a value where the key was
readable returns the newly written value. -/
theorem jGetItem_jSetItem (j v w : JValue) (k : String)
    (h : jGetItem j k = .ok v) :
    jGetItem (jSetItem j k w) k = .ok w := by
  cases j with
  | obj fs => simp [jSetItem, jGetItem, jLookup_jSetKey]
  | null => simp [jGetItem] at h
  | bool b => simp [jGetItem] at h
  | num q => simp [jGetItem] at h
  | str s => simp [jGetItem] at h
  | arr xs => simp [jGetItem] at h

/-- An index found by `listIndexOfFalse` is within the list. -/
theorem listIndexOfFalse_lt_length (xs : List JValue) (idx : Nat)
    (h : listIndexOfFalse xs = some idx) : idx < xs.length := by
  induction xs generalizing idx with
  | nil => simp [listIndexOfFalse] at h
  | cons x rest ih =>
    by_cases hx : eqPyFalse x
    · simp only [listIndexOfFalse, hx, if_pos, Option.some_inj] at h
      subst h
      simp
    · simp only [listIndexOfFalse, hx, Bool.false_eq_true, if_false,
        Option.map_eq_some'] at h
      obtain ⟨k, hk, hke⟩ := h
      have := ih k hk
      simp only [List.length_cons]
      omega

set_option maxRecDepth 10000 in
/-- Reduction of `run_check` on the deployment path: fetch succeeded, not
an EOD run, the move is present and at or below the trigger, the deployed
entry is an array with a first falsy element at `idx`, the crash sequence
has an amount at `idx`, and the post-mutation sum evaluates; then the run
returns the mutated state and exactly the one crash notification built
from the post-mutation deployed list. -/
theorem run_check_deploy_eq (now : ISTTime) (nowStr : String)
    (file : Option (Option JValue)) (data : MarketData) (pct : ℚ)
    (xs : List JValue) (idx : Nat) (amt : ℤ) (used : ℚ)
    (heod : is_eod_run now = false)
    (hpct : data.nifty_pct = some pct)
    (htrig : pct ≤ CRASH_TRIGGER_PCT)
    (hdep : jGetItem (load_state file) "deployed" = .ok (.arr xs))
    (hidx : listIndexOfFalse xs = some idx)
    (hamt : CRASH_SEQUENCE.get? idx = some amt)
    (hsum : pySumList (xs.set idx (.bool true)) 0 = .ok used) :
    run_check now nowStr file (.ok data) =
      .ok (jSetItem (load_state file) "deployed" (.arr (xs.set idx (.bool true))),
           [format_crash data.time pct idx amt (compute_allocation amt data.vix)
              used (xs.set idx (.bool true)).length]) := by
  simp only [run_check, heod, Bool.false_eq_true, if_false, hpct, htrig,
    if_pos, hdep, hidx, hamt, hsum]

set_option maxRecDepth 10000 in
/-- Every successful run either returns the loaded state unchanged or runs
the full deployment path: fetch succeeded, outside the EOD window, move
present and at or below the trigger, deployed read as an array with a
first falsy index, and the returned state is the loaded state with exactly
that entry set to true. -/
theorem run_check_state_cases (now : ISTTime) (nowStr : String)
    (file : Option (Option JValue)) (fetch : FetchResult)
    (s : JValue) (msgs : List String)
    (hrun : run_check now nowStr file fetch = .ok (s, msgs)) :
    s = load_state file ∨
    (∃ d p xs idx, fetch = .ok d ∧ is_eod_run now = false ∧
       d.nifty_pct = some p ∧ p ≤ CRASH_TRIGGER_PCT ∧
       jGetItem (load_state file) "deployed" = .ok (.arr xs) ∧
       listIndexOfFalse xs = some idx ∧
       s = jSetItem (load_state file) "deployed" (.arr (xs.set idx (.bool true)))) := by
  cases fetch with
  | err msg =>
    simp [run_check] at hrun
    exact Or.inl hrun.1.symm
  | ok data =>
    by_cases heod : is_eod_run now
    · cases hfmt : format_eod nowStr data (load_state file) with
      | error e => simp [run_check, heod, hfmt] at hrun
      | ok m =>
        simp [run_check, heod, hfmt] at hrun
        exact Or.inl hrun.1.symm
    · have heod' : is_eod_run now = false := by simpa using heod
      cases hpc : data.nifty_pct with
      | none =>
        simp [run_check, heod', hpc] at hrun
        exact Or.inl hrun.1.symm
      | some p =>
        by_cases htr : p ≤ CRASH_TRIGGER_PCT
        · cases hg : jGetItem (load_state file) "deployed" with
          | error e => simp [run_check, heod', hpc, htr, hg] at hrun
          | ok dep =>
            cases dep with
            | arr xs =>
              cases hix : listIndexOfFalse xs with
              | none =>
                simp [run_check, heod', hpc, htr, hg, hix] at hrun
                exact Or.inl hrun.1.symm
              | some idx =>
                cases hamt : CRASH_SEQUENCE[idx]? with
                | none => simp [run_check, heod', hpc, htr, hg, hix, hamt] at hrun
                | some amount =>
                  cases hsum : pySumList (xs.set idx (.bool true)) 0 with
                  | error e =>
                    simp [run_check, heod', hpc, htr, hg, hix, hamt, hsum] at hrun
                  | ok used =>
                    simp [run_check, heod', hpc, htr, hg, hix, hamt, hsum] at hrun
                    exact Or.inr ⟨data, p, xs, idx, rfl, heod', hpc, htr, rfl, hix,
                      hrun.1.symm⟩
            | null => simp [run_check, heod', hpc, htr, hg] at hrun
            | bool b => simp [run_check, heod', hpc, htr, hg] at hrun
            | num q => simp [run_check, heod', hpc, htr, hg] at hrun
            | str st => simp [run_check, heod', hpc, htr, hg] at hrun
            | obj fs => simp [run_check, heod', hpc, htr, hg] at hrun
        · simp [run_check, heod', hpc, htr] at hrun
          exact Or.inl hrun.1.symm

/-! ## Claim theorems -/

/-- C1: for every integer amount that is at least 0 and every volatility
input, the allocation returned by `compute_allocation` has values summing
exactly to the amount; every fund other than the first receives the floor
of amount times its selected weight, and the first fund receives its floor
plus the entire rounding remainder (amount minus the sum of all floors). -/
theorem compute_allocation_sum_and_floors (amount : ℤ) (vix : Option ℚ)
    (h : 0 ≤ amount) :
    ((compute_allocation amount vix).map Prod.snd).sum = amount ∧
    (∀ i, 1 ≤ i → i < 4 →
      ((compute_allocation amount vix).map Prod.snd)[i]? =
        some ⌊(amount : ℚ) * ((selectWeights vix).getD i 0)⌋) ∧
    ((compute_allocation amount vix).map Prod.snd)[0]? =
      some (⌊(amount : ℚ) * ((selectWeights vix).getD 0 0)⌋ +
        (amount - ((selectWeights vix).map (fun w => ⌊(amount : ℚ) * w⌋)).sum)) := by
  rcases selectWeights_eq_or vix with hw | hw
  · refine ⟨?_, ?_, ?_⟩
    · simp [compute_allocation, hw, FUNDS]
      ring
    · intro i h1 h2
      interval_cases i <;> simp [compute_allocation, hw, FUNDS]
    · simp [compute_allocation, hw, FUNDS]
  · refine ⟨?_, ?_, ?_⟩
    · simp [compute_allocation, hw, FUNDS]
      ring
    · intro i h1 h2
      interval_cases i <;> simp [compute_allocation, hw, FUNDS]
    · simp [compute_allocation, hw, FUNDS]

/-- Witness for C1 at amount 20000 with no volatility reading. -/
theorem compute_allocation_sum_and_floors_witness :
    ((compute_allocation 20000 none).map Prod.snd).sum = 20000 :=
  (compute_allocation_sum_and_floors 20000 none (by decide)).1

/-- C3: the reduced weight vector is selected exactly when a volatility
reading is present and strictly greater than the threshold 20.0, and the
uniform vector is selected otherwise (absent or at most 20.0). -/
theorem selectWeights_threshold (v : ℚ) :
    VIX_THRESHOLD = 20 ∧
    (VIX_THRESHOLD < v → selectWeights (some v) = [0.25, 0.325, 0.10, 0.325]) ∧
    (v ≤ VIX_THRESHOLD → selectWeights (some v) = [0.25, 0.25, 0.25, 0.25]) ∧
    selectWeights none = [0.25, 0.25, 0.25, 0.25] := by
  refine ⟨by norm_num [VIX_THRESHOLD], fun h => ?_, fun h => ?_,
    by norm_num [selectWeights]⟩
  · norm_num [selectWeights, h]
  · norm_num [selectWeights, not_lt.mpr h]

/-- Witness for C3: vix 25.0 selects the reduced vector. -/
theorem selectWeights_threshold_witness :
    selectWeights (some 25) = [0.25, 0.325, 0.10, 0.325] :=
  (selectWeights_threshold 25).2.1 (by decide)

/-- C5: `load_state` is a total function (so it never propagates an
error), and on a missing file or a file whose contents fail to parse it
returns the fresh default state, whose deployed list is six `false`
entries. -/
theorem load_state_missing_or_malformed :
    load_state none = default_state ∧
    load_state (some none) = default_state ∧
    default_state =
      .obj [("deployed", .arr (List.replicate 6 (.bool false)))] :=
  ⟨rfl, rfl, rfl⟩

/-- C9: starting from any state-file content, saving the loaded state and
then saving the result of loading that saved file writes byte-for-byte
identical contents both times. -/
theorem save_load_roundtrip_idempotent (file : Option (Option JValue)) :
    (save_state (load_state file)).2 =
    (save_state (load_state (save_state (load_state file)).1)).2 := rfl

/-- C10: `run_check` is deterministic; two executions with the same
wall-clock time, the same formatted timestamp, the same state-file content
and the same provider response produce the same final state and the same
notification texts. -/
theorem run_check_deterministic (n1 n2 : ISTTime) (s1 s2 : String)
    (f1 f2 : Option (Option JValue)) (r1 r2 : FetchResult)
    (hn : n1 = n2) (hs : s1 = s2) (hf : f1 = f2) (hr : r1 = r2) :
    run_check n1 s1 f1 r1 = run_check n2 s2 f2 r2 := by
  subst hn; subst hs; subst hf; subst hr; rfl

/-- Witness for C10 at a concrete input. -/
theorem run_check_deterministic_witness :
    run_check ⟨9, 15⟩ "t" none (.err "e") =
    run_check ⟨9, 15⟩ "t" none (.err "e") :=
  run_check_deterministic ⟨9, 15⟩ ⟨9, 15⟩ "t" "t" none none
    (.err "e") (.err "e") rfl rfl rfl rfl

/-- C4: whenever the fetch succeeds and the IST time is 18:30 or 18:31,
the run sends only the EOD summary and returns the loaded state unchanged;
this holds for every payload, in particular when the percentage move also
satisfies the crash trigger, so no tranche is deployed (EOD precedence). -/
theorem run_check_eod_precedence (now : ISTTime) (nowStr : String)
    (file : Option (Option JValue)) (data : MarketData) (msg : String)
    (hwin : now.hour = 18 ∧ (now.minute = 30 ∨ now.minute = 31))
    (hfmt : format_eod nowStr data (load_state file) = .ok msg) :
    run_check now nowStr file (.ok data) = .ok (load_state file, [msg]) := by
  have heod : is_eod_run now = true := by
    rcases hwin with ⟨h1, h2 | h2⟩ <;> simp [is_eod_run, h1, h2]
  simp [run_check, heod, hfmt]

set_option maxRecDepth 10000 in
/-- Witness for C4: an 18:30 run with a crash-sized drop of -5 percent and
an all-undeployed state sends exactly the EOD text and leaves the state
unchanged. -/
theorem run_check_eod_precedence_witness :
    run_check ⟨18, 30⟩ "T" none
        (.ok ⟨some (-5), some 24000, some "T", none, none, none, []⟩) =
      .ok (load_state none,
           [eod_text "T" ⟨some (-5), some 24000, some "T", none, none, none, []⟩ 0 6]) :=
  run_check_eod_precedence ⟨18, 30⟩ "T" none
    ⟨some (-5), some 24000, some "T", none, none, none, []⟩
    (eod_text "T" ⟨some (-5), some 24000, some "T", none, none, none, []⟩ 0 6)
    ⟨rfl, Or.inl rfl⟩ (by simp [format_eod, load_state, default_state, CRASH_SEQUENCE,
      jGetItem, jLookup, pySum, pySumList, pyNumVal, pyLen,
      List.replicate_succ, List.replicate_zero])

set_option maxRecDepth 10000 in
/-- C2: when the fetch succeeds, the time is outside the EOD window, the
percentage move is present and at most -3.0, and the deployed list is a
boolean list with an undeployed tranche at index idx within the crash
sequence, the run flips exactly that entry to true, allocates the amount
CRASH_SEQUENCE at idx using the snapshot volatility, and sends exactly one
crash notification whose deployed count is the pre-run count plus one (the
post-mutation count); idx is the lowest undeployed index. -/
theorem run_check_crash_deploys (now : ISTTime) (nowStr : String)
    (file : Option (Option JValue)) (data : MarketData) (pct : ℚ)
    (bs : List Bool) (idx : Nat)
    (heod : is_eod_run now = false)
    (hpct : data.nifty_pct = some pct)
    (htrig : pct ≤ CRASH_TRIGGER_PCT)
    (hdep : jGetItem (load_state file) "deployed" = .ok (.arr (bs.map JValue.bool)))
    (hidx : listIndexOfFalse (bs.map JValue.bool) = some idx)
    (hlen : idx < CRASH_SEQUENCE.length) :
    run_check now nowStr file (.ok data) =
      .ok (jSetItem (load_state file) "deployed"
             (.arr ((bs.set idx true).map JValue.bool)),
           [format_crash data.time pct idx (CRASH_SEQUENCE.getD idx 0)
              (compute_allocation (CRASH_SEQUENCE.getD idx 0) data.vix)
              ((bs.count true : ℚ) + 1) bs.length]) ∧
    bs[idx]? = some false ∧ (∀ j, j < idx → bs[j]? = some true) := by
  obtain ⟨hfalse, hbefore, hlt⟩ := listIndexOfFalse_boolList bs idx hidx
  refine ⟨?_, hfalse, hbefore⟩
  have h6 : idx < 6 := by simpa [CRASH_SEQUENCE] using hlen
  have hget : CRASH_SEQUENCE.get? idx = some (CRASH_SEQUENCE.getD idx 0) := by
    interval_cases idx <;> rfl
  have hcnt : ((bs.set idx true).count true : ℚ) = (bs.count true : ℚ) + 1 := by
    rw [count_set_true bs idx hfalse]
    push_cast
    ring
  simp only [run_check, heod, Bool.false_eq_true, if_false, hpct, htrig,
    if_pos, hdep, hidx, hget, map_set_bool, pySumList_boolList, hcnt,
    zero_add, List.length_map, List.length_set]

set_option maxRecDepth 10000 in
/-- Witness for C2: a -3 percent run at 10:00 against a fresh default
state deploys tranche 0 (amount 20000) and reports one crash used. -/
theorem run_check_crash_deploys_witness :
    run_check ⟨10, 0⟩ "T" none
        (.ok ⟨some (-3), some 24000, some "T", none, none, none, []⟩) =
      .ok (jSetItem (load_state none) "deployed"
             (.arr (((List.replicate 6 false).set 0 true).map JValue.bool)),
           [format_crash (some "T") (-3) 0 (CRASH_SEQUENCE.getD 0 0)
              (compute_allocation (CRASH_SEQUENCE.getD 0 0) none)
              (((List.replicate 6 false).count true : ℚ) + 1)
              (List.replicate 6 false).length]) :=
  (run_check_crash_deploys ⟨10, 0⟩ "T" none
    ⟨some (-3), some 24000, some "T", none, none, none, []⟩ (-3)
    (List.replicate 6 false) 0 rfl rfl (by decide)
    rfl rfl (by decide)).1

set_option maxRecDepth 10000 in
/-- C6 counterexample: a state file containing the valid JSON value `[]`
makes an EOD-window run raise an uncaught TypeError (subscripting a list
with the string key "deployed" inside `format_eod`), so a run does not
complete for every parseable state-file content. -/
theorem run_check_raises_on_json_array_state :
    run_check ⟨18, 30⟩ "T" (some (some (.arr [])))
      (.ok ⟨some (-5), none, none, none, none, none, []⟩) =
      .error .typeError := rfl

set_option maxRecDepth 10000 in
/-- C6 (amended): for every state-file content that is missing,
unreadable, or parses to a state whose "deployed" entry is an array of
booleans no longer than the crash sequence (which covers every file the
program itself ever writes), and for every provider response and clock
time, the run completes without an uncaught exception. -/
theorem run_check_total_on_wf_states (now : ISTTime) (nowStr : String)
    (file : Option (Option JValue)) (fetch : FetchResult)
    (hwf : wf_file file) :
    ∃ s msgs, run_check now nowStr file fetch = .ok (s, msgs) := by
  have hst : ∃ bs : List Bool,
      jGetItem (load_state file) "deployed" = .ok (.arr (bs.map JValue.bool)) ∧
      bs.length ≤ CRASH_SEQUENCE.length := by
    cases file with
    | none => exact ⟨List.replicate 6 false, rfl, by decide⟩
    | some o =>
      cases o with
      | none => exact ⟨List.replicate 6 false, rfl, by decide⟩
      | some j => exact hwf
  obtain ⟨bs, hdep, hblen⟩ := hst
  cases fetch with
  | err m => exact ⟨load_state file, ["Market fetch error: " ++ m], rfl⟩
  | ok d =>
    by_cases heod : is_eod_run now
    · have hfmt : format_eod nowStr d (load_state file) =
          .ok (eod_text nowStr d (0 + (bs.count true : ℚ))
                 (bs.map JValue.bool).length) := by
        simp only [format_eod, hdep, pySum, pySumList_boolList, pyLen]
      refine ⟨load_state file,
        [eod_text nowStr d (0 + (bs.count true : ℚ)) (bs.map JValue.bool).length], ?_⟩
      simp [run_check, heod, hfmt]
    · have heod' : is_eod_run now = false := by simpa using heod
      cases hpc : d.nifty_pct with
      | none =>
        refine ⟨load_state file, [], ?_⟩
        simp [run_check, heod', hpc]
      | some p =>
        by_cases htr : p ≤ CRASH_TRIGGER_PCT
        · cases hix : listIndexOfFalse (bs.map JValue.bool) with
          | none =>
            refine ⟨load_state file, [], ?_⟩
            simp [run_check, heod', hpc, htr, hdep, hix]
          | some idx =>
            have hlt : idx < bs.length := by
              have h := listIndexOfFalse_lt_length _ _ hix
              simpa using h
            have h6 : idx < 6 := by
              have h := lt_of_lt_of_le hlt hblen
              simpa [CRASH_SEQUENCE] using h
            have hamt : CRASH_SEQUENCE.get? idx = some (CRASH_SEQUENCE.getD idx 0) := by
              interval_cases idx <;> rfl
            have hsum : pySumList ((bs.map JValue.bool).set idx (.bool true)) 0 =
                .ok (0 + ((bs.set idx true).count true : ℚ)) := by
              rw [map_set_bool, pySumList_boolList]
            exact ⟨_, _, run_check_deploy_eq now nowStr file d p
              (bs.map JValue.bool) idx (CRASH_SEQUENCE.getD idx 0)
              (0 + ((bs.set idx true).count true : ℚ))
              heod' hpc htr hdep hix hamt hsum⟩
        · refine ⟨load_state file, [], ?_⟩
          simp [run_check, heod', hpc, htr]

/-- Witness for the amended C6: an EOD run against a parseable state file
with a single deployed tranche completes without an exception. -/
theorem run_check_total_on_wf_states_witness :
    ∃ s msgs,
      run_check ⟨18, 30⟩ "T"
        (some (some (.obj [("deployed", .arr [.bool true])])))
        (.ok ⟨some (-5), none, none, none, none, none, []⟩) = .ok (s, msgs) :=
  run_check_total_on_wf_states ⟨18, 30⟩ "T"
    (some (some (.obj [("deployed", .arr [.bool true])])))
    (.ok ⟨some (-5), none, none, none, none, none, []⟩)
    ⟨[true], rfl, by decide⟩

/-- C7: a successful run preserves the length of the deployed array and is
monotone on it: every entry that was `true` before is still `true` after,
and any entry that changed at all changed to `true`. -/
theorem run_check_deployed_monotone (now : ISTTime) (nowStr : String)
    (file : Option (Option JValue)) (fetch : FetchResult)
    (s : JValue) (msgs : List String) (xs : List JValue)
    (hrun : run_check now nowStr file fetch = .ok (s, msgs))
    (hdep : jGetItem (load_state file) "deployed" = .ok (.arr xs)) :
    ∃ ys, jGetItem s "deployed" = .ok (.arr ys) ∧
      ys.length = xs.length ∧
      (∀ i : Nat, xs[i]? = some (JValue.bool true) → ys[i]? = some (JValue.bool true)) ∧
      (∀ i : Nat, ys[i]? ≠ xs[i]? → ys[i]? = some (JValue.bool true)) := by
  rcases run_check_state_cases now nowStr file fetch s msgs hrun with
    h | ⟨d, p, xs0, idx, _, _, _, _, hg, hix, hs⟩
  · subst h
    exact ⟨xs, hdep, rfl, fun i hi => hi, fun i hi => absurd rfl hi⟩
  · have hx : xs0 = xs := by
      have h2 := hdep.symm.trans hg
      simp only [Except.ok.injEq, JValue.arr.injEq] at h2
      exact h2.symm
    rw [hx] at hix hs
    subst hs
    have hlt := listIndexOfFalse_lt_length _ _ hix
    refine ⟨xs.set idx (.bool true), jGetItem_jSetItem _ _ _ _ hdep,
      by simp, ?_, ?_⟩
    · intro i hi
      rcases eq_or_ne idx i with rfl | hne
      · simp [List.getElem?_set, hlt]
      · simpa [List.getElem?_set_ne hne] using hi
    · intro i hi
      rcases eq_or_ne idx i with rfl | hne
      · simp [List.getElem?_set, hlt]
      · exact absurd (List.getElem?_set_ne hne) hi

/-- Witness for C7: a provider-error run against the default state leaves
the deployed array of six entries intact. -/
theorem run_check_deployed_monotone_witness :
    ∃ ys, jGetItem default_state "deployed" = .ok (.arr ys) ∧
      ys.length = (List.replicate 6 (JValue.bool false)).length ∧
      (∀ i : Nat, (List.replicate 6 (JValue.bool false))[i]? = some (JValue.bool true) →
        ys[i]? = some (JValue.bool true)) ∧
      (∀ i : Nat, ys[i]? ≠ (List.replicate 6 (JValue.bool false))[i]? →
        ys[i]? = some (JValue.bool true)) :=
  run_check_deployed_monotone ⟨9, 0⟩ "T" none (.err "e") default_state
    ["Market fetch error: e"] (List.replicate 6 (JValue.bool false)) rfl rfl

/-- C8: on every run satisfying one of the no-deployment conditions
(provider error, EOD window, absent move, move above the trigger, or no
undeployed tranche), the state returned by `run_check` is exactly the
loaded state. -/
theorem run_check_no_deploy_frame (now : ISTTime) (nowStr : String)
    (file : Option (Option JValue)) (fetch : FetchResult)
    (s : JValue) (msgs : List String)
    (hcond : no_deploy_conditions now file fetch)
    (hrun : run_check now nowStr file fetch = .ok (s, msgs)) :
    s = load_state file := by
  rcases run_check_state_cases now nowStr file fetch s msgs hrun with
    h | ⟨d, p, xs, idx, hf, heod, hpc, htr, hg, hix, hs⟩
  · exact h
  · exfalso
    rcases hcond with ⟨m, hm⟩ | hm | ⟨d2, hd2, hn⟩ | ⟨d2, p2, hd2, hp2, hgt⟩ |
      ⟨xs2, hg2, hnone⟩
    · rw [hf] at hm
      cases hm
    · rw [heod] at hm
      cases hm
    · rw [hf] at hd2
      injection hd2 with h
      subst h
      rw [hpc] at hn
      cases hn
    · rw [hf] at hd2
      injection hd2 with h
      subst h
      rw [hpc] at hp2
      injection hp2 with h2
      subst h2
      exact absurd htr (not_le.mpr hgt)
    · rw [hg] at hg2
      injection hg2 with h3
      injection h3 with h4
      subst h4
      rw [hix] at hnone
      cases hnone

set_option maxRecDepth 100000 in
/-- Witness for C8: a crash-sized drop against a fully deployed state
returns the loaded state unchanged. -/
theorem run_check_no_deploy_frame_witness :
    JValue.obj [("deployed", .arr (List.replicate 6 (.bool true)))] =
    load_state (some (some (.obj [("deployed", .arr (List.replicate 6 (.bool true)))]))) :=
  run_check_no_deploy_frame ⟨10, 0⟩ "T"
    (some (some (.obj [("deployed", .arr (List.replicate 6 (.bool true)))])))
    (.ok ⟨some (-5), none, none, none, none, none, []⟩)
    (.obj [("deployed", .arr (List.replicate 6 (.bool true)))]) []
    (Or.inr (Or.inr (Or.inr (Or.inr
      ⟨List.replicate 6 (.bool true), rfl, rfl⟩))))
    (by rfl)

end MarketNotifier
